import Mathlib

/-!
# Verification of the SGNN word-projection preprocessing pipeline

Shallow embedding of the repository's notebook code (`SGNN-demo.ipynb`):
`SentenceTokenizer`, `WordTokenizer`, `CountVectorizer3D`, `FeatureUnion3D`
over a bank of `T = 80` sparse random projections of dimension `d = 14`,
together with theorems settling the frozen claims about the spec.

Strings are modelled as `List Char`; Python's `str.replace`, `str.split`,
`str.strip` are modelled by the structural functions below.  The while loop
clipping over-long sentences is modelled with an explicit fuel argument
(bounded by the string length, which dominates the iteration count since
every iteration consumes 200 characters).
-/

set_option maxRecDepth 8000

namespace SGNN

/-- Python whitespace characters, as tested by `str.strip` / `lstrip` / `rstrip`. -/
def isPySpace (c : Char) : Bool :=
  c == ' ' || c == '\t' || c == '\n' || c == '\r' || c == Char.ofNat 11 || c == Char.ofNat 12

/-- Python `str.lstrip()`. -/
def lstrip (s : List Char) : List Char := s.dropWhile isPySpace

/-- Python `str.rstrip()`. -/
def rstrip (s : List Char) : List Char := (s.reverse.dropWhile isPySpace).reverse

/-- Python `str.strip()` (strip both ends). -/
def pyStrip (s : List Char) : List Char := rstrip (lstrip s)

/-- `sep = chr(29)`: the control separator inserted after sentence terminators. -/
def sepChar : Char := Char.ofNat 29

/-- Python `str.replace(p, rep)` for a single-character pattern `p`:
every occurrence of `p` is replaced by `rep`. -/
def replace1 (p : Char) (rep : List Char) : List Char → List Char
  | [] => []
  | c :: cs => if c = p then rep ++ replace1 p rep cs else c :: replace1 p rep cs

/-- Python `str.replace(p1p2, rep)` for a two-character pattern: scans left to
right, replacing non-overlapping occurrences of the pair `p1 p2` by `rep`. -/
def replace2 (p1 p2 : Char) (rep : List Char) : List Char → List Char
  | [] => []
  | [c] => [c]
  | c1 :: c2 :: cs =>
    if c1 = p1 ∧ c2 = p2 then rep ++ replace2 p1 p2 rep cs
    else c1 :: replace2 p1 p2 rep (c2 :: cs)

/-- Python `str.split(c)` with an explicit one-character separator: consecutive
separators produce empty fields, and the empty string splits to `[""]`. -/
def splitOnChar (c : Char) : List Char → List (List Char)
  | [] => [[]]
  | x :: xs =>
    let r := splitOnChar c xs
    if x = c then [] :: r
    else
      match r with
      | [] => [[x]]
      | h :: t => (x :: h) :: t

/-- `SentenceTokenizer.MINIMUM_SENTENCE_LENGTH`. -/
def MINIMUM_SENTENCE_LENGTH : Nat := 10

/-- `SentenceTokenizer.MAXIMUM_SENTENCE_LENGTH`. -/
def MAXIMUM_SENTENCE_LENGTH : Nat := 200

/-- The per-phrase body of `SentenceTokenizer._split`: the `while` loop clipping
phrases longer than 200 characters (emitting `phrase[:200].lstrip()` and
continuing on `phrase[200:].rstrip()`), followed by the final minimum-length
check.  `fuel` bounds the number of loop iterations; callers pass the phrase
length, which suffices since every iteration removes 200 characters. -/
def chunkPhrase : Nat → List Char → List (List Char)
  | 0, p =>
    if MAXIMUM_SENTENCE_LENGTH < p.length then []
    else if MINIMUM_SENTENCE_LENGTH ≤ p.length then [p] else []
  | fuel + 1, p =>
    if MAXIMUM_SENTENCE_LENGTH < p.length then
      lstrip (p.take MAXIMUM_SENTENCE_LENGTH) ::
        chunkPhrase fuel (rstrip (p.drop MAXIMUM_SENTENCE_LENGTH))
    else if MINIMUM_SENTENCE_LENGTH ≤ p.length then [p] else []

/-- `SentenceTokenizer._split` (= `SentenceTokenizer.transform`): strip the
input, append `chr(29)` after each of `.`, `?`, `!`, `;`, `\n` (five sequential
single-character replaces, as in the source), split on `chr(29)`, then strip
each phrase and run the clipping loop with the minimum-length check. -/
def sentenceSplit (input : List Char) : List (List Char) :=
  let s0 := pyStrip input
  let s1 := replace1 '.' ['.', sepChar] s0
  let s2 := replace1 '?' ['?', sepChar] s1
  let s3 := replace1 '!' ['!', sepChar] s2
  let s4 := replace1 ';' [';', sepChar] s3
  let s5 := replace1 '\n' ['\n', sepChar] s4
  (splitOnChar sepChar s5).flatMap (fun phrase =>
    let p := pyStrip phrase
    chunkPhrase p.length p)

/-- `WordTokenizer.transform`, per sentence:
`sentence.replace("//", " /").replace("/", " /").replace("-", " -")
.replace("  ", " ").split(" ")`, dropping empty words and wrapping each
surviving word as `"<" + word + ">"`. -/
def wordTokenize (sentence : List Char) : List (List Char) :=
  ((splitOnChar ' '
        (replace2 ' ' ' ' [' ']
          (replace1 '-' [' ', '-']
            (replace1 '/' [' ', '/']
              (replace2 '/' '/' [' ', '/'] sentence))))).filter
    (fun w => w ≠ [])).map (fun w => '<' :: w ++ ['>'])

/-- `WordTokenizer.transform` on a batch of sentences. -/
def wordTokenizer3D (X : List (List Char)) : List (List (List Char)) :=
  X.map wordTokenize

/-- The behaviour claim C5 ascribes to `WordTokenizer.transform`, following the
spec's words: each occurrence of `/` or `-` is treated as equivalent to
inserting a SURROUNDING space (a boundary on both sides, so the character forms
its own token), repeated spaces are collapsed, empty tokens dropped, and each
surviving token wrapped with the markers.  Kept distinct from `wordTokenize`
(the source's behaviour) so the two can be compared. -/
def wordTokenizeClaim (sentence : List Char) : List (List Char) :=
  let s := sentence.flatMap (fun c => if c = '/' ∨ c = '-' then [' ', c, ' '] else [c])
  ((splitOnChar ' ' s).filter (fun w => w ≠ [])).map (fun w => '<' :: w ++ ['>'])

/-- Characters with no special role inside `WordTokenizer.transform`:
not a space, not `/`, not `-`. -/
def plainChar (c : Char) : Prop := c ≠ ' ' ∧ c ≠ '/' ∧ c ≠ '-'

instance (c : Char) : Decidable (plainChar c) := by
  unfold plainChar; infer_instance

/-- sklearn's `char` analyzer with `ngram_range = (lo, hi)`: all contiguous
substrings of length `lo` to `min hi (length)`, listed by length then start
position (mirroring the analyzer's loops). -/
def ngramsRange (lo hi : Nat) (tok : List Char) : List (List Char) :=
  (List.range' lo (min hi tok.length + 1 - lo)).flatMap (fun n =>
    (List.range (tok.length + 1 - n)).map (fun i => (tok.drop i).take n))

/-- One row of sklearn `CountVectorizer.transform` — modelled from the spec:
entry `j` counts the occurrences of vocabulary n-gram `j` among the token's
character n-grams; n-grams absent from the vocabulary contribute nothing
(sklearn's counting loop simply skips them). -/
def countVector (vocab : List (List Char)) (tok : List Char) : List ℚ :=
  vocab.map (fun g => ((ngramsRange 1 4 tok).count g : ℚ))

/-- Configuration of the char-n-gram `CountVectorizer`
(`char_term_frequency_params` in the source). -/
structure CVConfig where
  ngramLo : Nat
  ngramHi : Nat
  minDf : Nat
  maxDf : ℚ
  maxFeatures : Nat
deriving DecidableEq

/-- The configuration set by `char_term_frequency_params`:
`ngram_range = (1, 4)`, `min_df = 2`, `max_df = 0.99`, `max_features = 1e7`. -/
def charTermFrequencyParams : CVConfig :=
  { ngramLo := 1, ngramHi := 4, minDf := 2, maxDf := 99 / 100, maxFeatures := 10000000 }

/-- Lexicographic (codepoint) order on character lists, the order in which
sklearn sorts the fitted vocabulary alphabetically. -/
def lexLeB : List Char → List Char → Bool
  | [], _ => true
  | _ :: _, [] => false
  | a :: as, b :: bs => if a = b then lexLeB as bs else decide (a < b)

/-- Document frequency of an n-gram: the number of documents (word tokens)
whose n-gram list contains it. -/
def docFrequency (cfg : CVConfig) (g : List Char) (docs : List (List Char)) : Nat :=
  (docs.filter (fun d => g ∈ ngramsRange cfg.ngramLo cfg.ngramHi d)).length

/-- Total term frequency of an n-gram across all documents. -/
def termFrequency (cfg : CVConfig) (g : List Char) (docs : List (List Char)) : Nat :=
  (docs.map (fun d => (ngramsRange cfg.ngramLo cfg.ngramHi d).count g)).sum

/-- Modelled from the spec: sklearn `CountVectorizer` vocabulary construction
(the code inherits it; it is not part of the repository's own source).  Collect
the distinct n-grams of all documents, sort them alphabetically, keep those
whose document frequency lies within `[min_df, max_df * n_docs]`, and when more
than `max_features` remain keep the `max_features` most frequent (the spec
leaves the tie-break open; modelled here as lexicographic), preserving the
alphabetical column order of the survivors. -/
def fitVocabulary (cfg : CVConfig) (docs : List (List Char)) : List (List Char) :=
  let distinct := (docs.flatMap (ngramsRange cfg.ngramLo cfg.ngramHi)).dedup
  let sorted := distinct.insertionSort (fun a b => lexLeB a b = true)
  let passing := sorted.filter (fun g =>
    cfg.minDf ≤ docFrequency cfg g docs ∧
      (docFrequency cfg g docs : ℚ) ≤ cfg.maxDf * docs.length)
  if passing.length ≤ cfg.maxFeatures then passing
  else
    let ranked := passing.insertionSort (fun a b =>
      termFrequency cfg b docs < termFrequency cfg a docs ∨
        (termFrequency cfg a docs = termFrequency cfg b docs ∧ lexLeB a b = true))
    let keep := ranked.take cfg.maxFeatures
    passing.filter (fun g => g ∈ keep)

/-- Python `sum(X, [])`: left-fold concatenation, flattening the
sentence level of a ragged batch (used by `CountVectorizer3D.fit` and
conceptually by `FeatureUnion3D.fit`'s `sp.vstack`). -/
def flattenBatch {α : Type} (X : List (List α)) : List α := X.foldl (· ++ ·) []

/-- `CountVectorizer3D.fit`'s vocabulary: flatten the (sentence × token) batch
with `sum(X, [])`, then fit the vocabulary on the token documents. -/
def cv3DFitVocab (cfg : CVConfig) (X : List (List (List Char))) : List (List Char) :=
  fitVocabulary cfg (flattenBatch X)

/-- `CountVectorizer3D.transform` on a fitted vocabulary: one count matrix per
sentence, one row per token. -/
def cv3DTransform (vocab : List (List Char)) (X : List (List (List Char))) :
    List (List (List ℚ)) :=
  X.map (fun sent => sent.map (countVector vocab))

/-- Error kinds surfaced by the pipeline (spec §7). -/
inductive SGNNError where
  | notFitted
deriving DecidableEq

/-- Modelled from the spec: sklearn `CountVectorizer.transform` checks
`check_is_fitted` before touching its input and raises `NotFittedError` when no
vocabulary has been fitted (the check lives in sklearn, not in the repository's
source).  The fitted state is `none` before any `fit` call. -/
def cvTransformE (fitted : Option (List (List Char))) (x : List (List Char)) :
    Except SGNNError (List (List ℚ)) :=
  match fitted with
  | none => Except.error SGNNError.notFitted
  | some vocab => Except.ok (x.map (countVector vocab))

/-- `CountVectorizer3D.transform` with the fallibility made explicit: the list
comprehension calls the inner transform per sentence, propagating the first
raised error. -/
def cv3DTransformE (fitted : Option (List (List Char))) :
    List (List (List Char)) → Except SGNNError (List (List (List ℚ)))
  | [] => Except.ok []
  | x :: xs => do
    let m ← cvTransformE fitted x
    let ms ← cv3DTransformE fitted xs
    pure (m :: ms)

/-- `CountVectorizer3D.fit`: after fitting, the state holds the vocabulary. -/
def cv3DFit (cfg : CVConfig) (X : List (List (List Char))) : Option (List (List Char)) :=
  some (cv3DFitVocab cfg X)

/-- `T = 80` projections. -/
def numProjections : Nat := 80

/-- `d = 14` components per projection. -/
def projectionDim : Nat := 14

/-- Dot product of two rows. -/
def dot (xs ys : List ℚ) : ℚ := (List.zipWith (fun a b => a * b) xs ys).sum

/-- One `SparseRandomProjection.transform`: `X @ components.T`, where
`components` has one row per output component (shape `(n_components,
n_features)`), so each input row maps to one output entry per component row. -/
def srpTransform (components : List (List ℚ)) (A : List (List ℚ)) : List (List ℚ) :=
  A.map (fun row => components.map (fun comp => dot row comp))

/-- `FeatureUnion.transform`: apply every hasher to the matrix and horizontally
concatenate the per-hasher blocks of each row. -/
def featureUnionTransform (hashers : List (List (List ℚ))) (A : List (List ℚ)) :
    List (List ℚ) :=
  A.map (fun row => (hashers.map (fun components => components.map (fun comp => dot row comp))).flatten)

/-- `FeatureUnion3D.transform`: the union transform applied per sentence. -/
def featureUnion3DTransform (hashers : List (List (List ℚ)))
    (X : List (List (List ℚ))) : List (List (List ℚ)) :=
  X.map (featureUnionTransform hashers)

/-- The fitted pipeline's `transform`:
`WordTokenizer → CountVectorizer3D → FeatureUnion3D`, with the fitted
vocabulary and the bank of projection component matrices as frozen inputs. -/
def pipelineTransform (vocab : List (List Char)) (hashers : List (List (List ℚ)))
    (X : List (List Char)) : List (List (List ℚ)) :=
  featureUnion3DTransform hashers (cv3DTransform vocab (wordTokenizer3D X))

/-- The state fitted once by the pipeline: vocabulary and projection bank. -/
structure PipelineState where
  vocab : List (List Char)
  hashers : List (List (List ℚ))

/-- The pipeline's `transform` as a stateful action: mirroring the source, it
reads the fitted state and never writes it (no method assigns to `self`). -/
def pipelineTransformM (X : List (List Char)) :
    StateM PipelineState (List (List (List ℚ))) := do
  let st ← get
  pure (pipelineTransform st.vocab st.hashers X)

/-- The constructor arguments of `sklearn.random_projection.SparseRandomProjection`
that the notebook touches: `n_components` (`none` encodes the `'auto'`
default), `dense_output`, and `random_state` (`none` encodes `None`). -/
structure SRPConfig where
  nComponents : Option Nat
  denseOutput : Bool
  randomState : Option Nat
deriving DecidableEq

/-- `SparseRandomProjection()` as constructed in the pipeline: all arguments
left at their defaults (`n_components='auto'`, `dense_output=False`,
`random_state=None`). -/
def sparseRandomProjectionInit : SRPConfig :=
  { nComponents := none, denseOutput := false, randomState := none }

/-- `hashing_feature_union_params` applied to one hasher: for every `t` the
dict sets exactly `n_components = d = 14` and `dense_output = False`; no other
key (in particular no `random_state`) appears. -/
def applyHashingFeatureUnionParams (p : SRPConfig) : SRPConfig :=
  { p with nComponents := some projectionDim, denseOutput := false }

/-- The hasher at index `t` after `pipeline.set_params(**params)`. -/
def pipelineHasher (_t : Nat) : SRPConfig :=
  applyHashingFeatureUnionParams sparseRandomProjectionInit

/-- The `FeatureUnion3D` hasher list
`[('sparse_random_projection_hasher_t', SparseRandomProjection()) for t in range(T)]`
after `set_params`. -/
def unionHashers : List (Nat × SRPConfig) :=
  (List.range numProjections).map (fun t => (t, pipelineHasher t))

/-- Concrete input exhibiting a short mid-loop chunk in
`SentenceTokenizer._split`: 200 letters, then 195 spaces, then `bcdef`,
then 201 letters — a single phrase of 601 characters with no sentence
terminator. -/
def c2Input : List Char :=
  List.replicate 200 'a' ++ List.replicate 195 ' ' ++ ['b', 'c', 'd', 'e', 'f'] ++
    List.replicate 201 'g'

/-! ## Helper lemmas -/

theorem sum_map_const {α : Type} (l : List α) (f : α → Nat) (c : Nat)
    (h : ∀ x ∈ l, f x = c) : (l.map f).sum = c * l.length := by
  induction l with
  | nil => simp
  | cons x xs ih =>
    have hx := h x (List.mem_cons_self x xs)
    have ihx := ih (fun y hy => h y (List.mem_cons_of_mem x hy))
    simp [hx, ihx, Nat.mul_succ, Nat.add_comm]

theorem chunkPhrase_spec (fuel : Nat) : ∀ p : List Char, ∀ s ∈ chunkPhrase fuel p,
    s.length ≤ MAXIMUM_SENTENCE_LENGTH ∧
      (MINIMUM_SENTENCE_LENGTH ≤ s.length ∨
        ∃ q : List Char, MAXIMUM_SENTENCE_LENGTH < q.length ∧
          s = lstrip (q.take MAXIMUM_SENTENCE_LENGTH)) := by
  induction fuel with
  | zero =>
    intro p s hs
    simp only [chunkPhrase] at hs
    split_ifs at hs with h1 h2
    · simp at hs
    · simp only [List.mem_singleton] at hs
      subst hs
      exact ⟨Nat.le_of_not_lt h1, Or.inl h2⟩
    · simp at hs
  | succ fuel ih =>
    intro p s hs
    simp only [chunkPhrase] at hs
    split_ifs at hs with h1 h2
    · rcases List.mem_cons.mp hs with rfl | hs2
      · refine ⟨?_, Or.inr ⟨p, h1, rfl⟩⟩
        calc (lstrip (p.take MAXIMUM_SENTENCE_LENGTH)).length
            ≤ (p.take MAXIMUM_SENTENCE_LENGTH).length :=
              (List.dropWhile_sublist isPySpace).length_le
          _ ≤ MAXIMUM_SENTENCE_LENGTH := List.length_take_le MAXIMUM_SENTENCE_LENGTH p
      · exact ih _ s hs2
    · simp only [List.mem_singleton] at hs
      subst hs
      exact ⟨Nat.le_of_not_lt h1, Or.inl h2⟩
    · simp at hs

theorem mem_sentenceSplit {input s : List Char} (hs : s ∈ sentenceSplit input) :
    ∃ fuel : Nat, ∃ p : List Char, s ∈ chunkPhrase fuel p := by
  simp only [sentenceSplit, List.mem_flatMap] at hs
  obtain ⟨phrase, _, hmem⟩ := hs
  exact ⟨(pyStrip phrase).length, pyStrip phrase, hmem⟩

/-! ## Claim theorems -/

/-- Claim C10: every sentence returned by `SentenceTokenizer._split` has length
at most `L_max = 200`: the while loop emits `phrase[:200].lstrip()` (at most
200 characters) and the final remainder is appended only after the loop
condition `len > 200` has failed. -/
theorem sentenceSplit_max_length :
    ∀ input : List Char, ∀ s ∈ sentenceSplit input, s.length ≤ MAXIMUM_SENTENCE_LENGTH := by
  intro input s hs
  obtain ⟨fuel, p, hmem⟩ := mem_sentenceSplit hs
  exact (chunkPhrase_spec fuel p s hmem).1

/-- Witness for C10 on a concrete input. -/
theorem sentenceSplit_max_length_witness :
    (['g', 'o', 'o', 'd', 'b', 'y', 'e', ' ', 'w', 'o', 'r', 'l', 'd', '.'] ∈
        sentenceSplit ['g', 'o', 'o', 'd', 'b', 'y', 'e', ' ', 'w', 'o', 'r', 'l', 'd', '.']) ∧
      ['g', 'o', 'o', 'd', 'b', 'y', 'e', ' ', 'w', 'o', 'r', 'l', 'd', '.'].length ≤
        MAXIMUM_SENTENCE_LENGTH :=
  ⟨by decide,
    sentenceSplit_max_length ['g', 'o', 'o', 'd', 'b', 'y', 'e', ' ', 'w', 'o', 'r', 'l', 'd', '.']
      ['g', 'o', 'o', 'd', 'b', 'y', 'e', ' ', 'w', 'o', 'r', 'l', 'd', '.'] (by decide)⟩

/-- Counterexample to claim C2: on `c2Input` (one 601-character phrase), the
second emitted chunk is `"bcdef"` — the slice `phrase[200:400]` starts with 195
spaces, and `lstrip` shrinks it to 5 characters, below
`MINIMUM_SENTENCE_LENGTH = 10`; the while-loop chunks are never length-checked. -/
theorem sentenceSplit_min_length_counterexample :
    ['b', 'c', 'd', 'e', 'f'] ∈ sentenceSplit c2Input ∧
      ¬ (∀ s ∈ sentenceSplit c2Input, MINIMUM_SENTENCE_LENGTH ≤ s.length) := by
  constructor
  · decide
  · decide

/-- Claim C2 (amended): every output sentence has length at most `L_max = 200`;
every output sentence either has length at least `L_min = 10` or is the
leading-trimmed 200-character slice of an over-long sentence (such mid-loop
chunks are emitted without a minimum-length check); final phrases and final
remainders shorter than `L_min` are discarded. -/
theorem sentenceSplit_length_bounds :
    ∀ input : List Char, ∀ s ∈ sentenceSplit input,
      s.length ≤ MAXIMUM_SENTENCE_LENGTH ∧
        (MINIMUM_SENTENCE_LENGTH ≤ s.length ∨
          ∃ q : List Char, MAXIMUM_SENTENCE_LENGTH < q.length ∧
            s = lstrip (q.take MAXIMUM_SENTENCE_LENGTH)) := by
  intro input s hs
  obtain ⟨fuel, p, hmem⟩ := mem_sentenceSplit hs
  exact chunkPhrase_spec fuel p s hmem

/-- Witness for the amended C2 on a concrete input. -/
theorem sentenceSplit_length_bounds_witness :
    (['h', 'e', 'l', 'l', 'o', ' ', 'w', 'o', 'r', 'l', 'd', '.'] ∈
        sentenceSplit ['h', 'e', 'l', 'l', 'o', ' ', 'w', 'o', 'r', 'l', 'd', '.']) ∧
      (['h', 'e', 'l', 'l', 'o', ' ', 'w', 'o', 'r', 'l', 'd', '.'].length ≤
          MAXIMUM_SENTENCE_LENGTH ∧
        (MINIMUM_SENTENCE_LENGTH ≤
            ['h', 'e', 'l', 'l', 'o', ' ', 'w', 'o', 'r', 'l', 'd', '.'].length ∨
          ∃ q : List Char, MAXIMUM_SENTENCE_LENGTH < q.length ∧
            ['h', 'e', 'l', 'l', 'o', ' ', 'w', 'o', 'r', 'l', 'd', '.'] =
              lstrip (q.take MAXIMUM_SENTENCE_LENGTH))) :=
  ⟨by decide,
    sentenceSplit_length_bounds ['h', 'e', 'l', 'l', 'o', ' ', 'w', 'o', 'r', 'l', 'd', '.']
      ['h', 'e', 'l', 'l', 'o', ' ', 'w', 'o', 'r', 'l', 'd', '.'] (by decide)⟩

/-- Claim C4: vocabulary fitting is deterministic — identical corpus and
identical configuration yield the identical vocabulary and identical
n-gram-to-column-index assignment.  (The vocabulary construction is a pure
function of the flattened corpus and the configuration; no other input
exists in the embedding, mirroring that sklearn's fit consults nothing else.) -/
theorem cv3DFitVocab_deterministic (cfg1 cfg2 : CVConfig)
    (X1 X2 : List (List (List Char))) (hcfg : cfg1 = cfg2) (hX : X1 = X2) :
    cv3DFitVocab cfg1 X1 = cv3DFitVocab cfg2 X2 ∧
      ∀ g : List Char,
        (cv3DFitVocab cfg1 X1).indexOf g = (cv3DFitVocab cfg2 X2).indexOf g := by
  subst hcfg
  subst hX
  exact ⟨rfl, fun _ => rfl⟩

/-- Witness for C4 on a concrete corpus and the source's configuration. -/
theorem cv3DFitVocab_deterministic_witness :
    cv3DFitVocab charTermFrequencyParams [[['a', 'b'], ['a', 'c']], [['a', 'b']]] =
        cv3DFitVocab charTermFrequencyParams [[['a', 'b'], ['a', 'c']], [['a', 'b']]] ∧
      ∀ g : List Char,
        (cv3DFitVocab charTermFrequencyParams [[['a', 'b'], ['a', 'c']], [['a', 'b']]]).indexOf g =
          (cv3DFitVocab charTermFrequencyParams [[['a', 'b'], ['a', 'c']], [['a', 'b']]]).indexOf g :=
  cv3DFitVocab_deterministic _ _ _ _ rfl rfl

/-- Claim C6: `transform` never fails on out-of-vocabulary tokens — every token
gets a full-width count row, and a token sharing no n-gram with the fitted
vocabulary maps to the all-zero row (absent n-grams contribute zero). -/
theorem countVector_oov (vocab : List (List Char)) (tok : List Char) :
    (countVector vocab tok).length = vocab.length ∧
      ((∀ g ∈ vocab, g ∉ ngramsRange 1 4 tok) →
        countVector vocab tok = List.replicate vocab.length 0) := by
  constructor
  · simp [countVector]
  · intro h
    induction vocab with
    | nil => rfl
    | cons v vs ih =>
      have hv : (ngramsRange 1 4 tok).count v = 0 :=
        List.count_eq_zero.mpr (h v (List.mem_cons_self v vs))
      have hvs := ih (fun g hg => h g (List.mem_cons_of_mem v hg))
      simp only [countVector, List.map_cons, List.length_cons, List.replicate_succ] at hvs ⊢
      rw [hv, hvs]
      norm_num

/-- Witness for C6: the token `"ab"` shares no n-gram with the vocabulary
`["xy"]`, so its count row is the zero row. -/
theorem countVector_oov_witness :
    (∀ g ∈ [['x', 'y']], g ∉ ngramsRange 1 4 ['a', 'b']) ∧
      countVector [['x', 'y']] ['a', 'b'] = List.replicate 1 0 :=
  ⟨by decide, (countVector_oov [['x', 'y']] ['a', 'b']).2 (by decide)⟩

/-- Claim C7: calling `CountVectorizer3D.transform` on a non-empty batch before
any `fit` fails with `NotFitted`, while transforming after a `fit` succeeds on
every batch. -/
theorem cv3DTransformE_notFitted :
    (∀ X : List (List (List Char)), X ≠ [] →
        cv3DTransformE none X = Except.error SGNNError.notFitted) ∧
      (∀ (cfg : CVConfig) (X0 X : List (List (List Char))),
        cv3DTransformE (cv3DFit cfg X0) X =
          Except.ok (cv3DTransform (cv3DFitVocab cfg X0) X)) := by
  constructor
  · intro X hX
    cases X with
    | nil => exact absurd rfl hX
    | cons x xs => rfl
  · intro cfg X0 X
    induction X with
    | nil => rfl
    | cons x xs ih =>
      simp only [cv3DTransformE, cv3DFit, cvTransformE, cv3DTransform, List.map_cons] at ih ⊢
      rw [ih]
      rfl

/-- Witness for C7: a concrete non-empty batch fails before fit and succeeds
after fitting on a concrete corpus. -/
theorem cv3DTransformE_notFitted_witness :
    cv3DTransformE none [[['a']]] = Except.error SGNNError.notFitted ∧
      cv3DTransformE (cv3DFit charTermFrequencyParams [[['a', 'b'], ['a', 'c']]]) [[['a']]] =
        Except.ok (cv3DTransform (cv3DFitVocab charTermFrequencyParams [[['a', 'b'], ['a', 'c']]])
          [[['a']]]) :=
  ⟨cv3DTransformE_notFitted.1 [[['a']]] (by decide),
    cv3DTransformE_notFitted.2 charTermFrequencyParams [[['a', 'b'], ['a', 'c']]] [[['a']]]⟩

/-- Claim C8: with the fitted state threaded explicitly, running `transform`
twice on the same input yields identical outputs, and the fitted state
(vocabulary and projection bank) after both calls is unchanged — mirroring
that the source's `transform` methods only read `self`. -/
theorem pipelineTransform_idempotent (st : PipelineState) (X : List (List Char)) :
    (((pipelineTransformM X).run st).1 = ((pipelineTransformM X).run ((pipelineTransformM X).run st).2).1 ∧
        ((pipelineTransformM X).run ((pipelineTransformM X).run st).2).2 = st) :=
  ⟨rfl, rfl⟩

/-- Counterexample to claim C3: not every hasher in the union is
deterministically seeded — the parameter dictionary sets no `random_state`,
so every `SparseRandomProjection` keeps `random_state=None`. -/
theorem unionHashers_seeded_counterexample :
    ¬ (∀ pr ∈ unionHashers, pr.2.randomState.isSome = true) := by
  intro h
  exact absurd (h (0, pipelineHasher 0) (by decide)) (by decide)

/-- Claim C3 (amended): no projection seed is configured at all — after
`set_params`, every one of the `T = 80` hashers has exactly
`n_components = 14`, `dense_output = False`, and `random_state = None`
(sklearn then draws the matrix from the global RNG), so the persisted-seed
reconstruction the claim describes is not implemented. -/
theorem unionHashers_unseeded :
    ∀ pr ∈ unionHashers,
      pr.2 = { nComponents := some projectionDim, denseOutput := false,
               randomState := none } := by
  intro pr hpr
  simp only [unionHashers, List.mem_map] at hpr
  obtain ⟨t, _, rfl⟩ := hpr
  rfl

/-- Witness for the amended C3 at hasher index 0. -/
theorem unionHashers_unseeded_witness :
    ((0, pipelineHasher 0) ∈ unionHashers) ∧
      (0, pipelineHasher 0).2 =
        { nComponents := some projectionDim, denseOutput := false,
          randomState := none } :=
  ⟨by decide, unionHashers_unseeded (0, pipelineHasher 0) (by decide)⟩

/-- Claim C1: shape law.  For a fitted pipeline (80 hashers, each with a
14-row component matrix) and any batch of sentences, the full transform
returns one matrix per sentence in input order; the `i`-th matrix has one row
per word token of the `i`-th sentence, and every row has `T*d = 80*14 = 1120`
entries. -/
theorem pipelineTransform_shape (vocab : List (List Char))
    (hashers : List (List (List ℚ))) (hT : hashers.length = numProjections)
    (hd : ∀ comps ∈ hashers, comps.length = projectionDim) (X : List (List Char)) :
    (pipelineTransform vocab hashers X).length = X.length ∧
      (∀ i, i < X.length →
        ((pipelineTransform vocab hashers X).getD i []).length =
          (wordTokenize (X.getD i [])).length) ∧
      (∀ M ∈ pipelineTransform vocab hashers X, ∀ row ∈ M, row.length = 1120) := by
  have hrep : pipelineTransform vocab hashers X =
      X.map (fun s => featureUnionTransform hashers
        ((wordTokenize s).map (countVector vocab))) := by
    simp [pipelineTransform, featureUnion3DTransform, cv3DTransform, wordTokenizer3D,
      List.map_map]
  refine ⟨?_, ?_, ?_⟩
  · rw [hrep, List.length_map]
  · intro i hi
    rw [hrep]
    simp [List.getD_eq_getElem?_getD, List.getElem?_map, List.getElem?_eq_getElem hi,
      featureUnionTransform]
  · intro M hM row hrow
    rw [hrep] at hM
    rcases List.mem_map.mp hM with ⟨s, _, rfl⟩
    rcases List.mem_map.mp hrow with ⟨cnt, _, rfl⟩
    simp only [List.length_flatten, List.map_map, Function.comp]
    rw [sum_map_const hashers _ projectionDim (fun comps hcomps => by
      simp only [Function.comp_apply, List.length_map]; exact hd comps hcomps), hT]
    rfl

/-- Witness for C1: a concrete fitted bank (80 component matrices of 14 rows
each) and a one-sentence batch of two words. -/
theorem pipelineTransform_shape_witness :
    (List.replicate numProjections (List.replicate projectionDim [(1 : ℚ)])).length =
        numProjections ∧
      (pipelineTransform [['a']]
          (List.replicate numProjections (List.replicate projectionDim [(1 : ℚ)]))
          [['h', 'i', ' ', 'u']]).length = 1 ∧
      (∀ M ∈ pipelineTransform [['a']]
          (List.replicate numProjections (List.replicate projectionDim [(1 : ℚ)]))
          [['h', 'i', ' ', 'u']], ∀ row ∈ M, row.length = 1120) := by
  have h := pipelineTransform_shape [['a']]
    (List.replicate numProjections (List.replicate projectionDim [(1 : ℚ)]))
    (by simp)
    (fun comps hcomps => by rw [List.eq_of_mem_replicate hcomps]; simp)
    [['h', 'i', ' ', 'u']]
  exact ⟨by simp, h.1, h.2.2⟩

/-! ## Lemmas about the word-tokenizer replace chain -/

theorem replace1_append (p : Char) (rep : List Char) (xs ys : List Char) :
    replace1 p rep (xs ++ ys) = replace1 p rep xs ++ replace1 p rep ys := by
  induction xs with
  | nil => rfl
  | cons c cs ih => by_cases h : c = p <;> simp [replace1, h, ih]

theorem replace1_of_not_mem {p : Char} (rep : List Char) :
    ∀ {s : List Char}, p ∉ s → replace1 p rep s = s := by
  intro s
  induction s with
  | nil => intro _; rfl
  | cons c cs ih =>
    intro h
    have hc : ¬ c = p := fun hcp => h (hcp ▸ List.mem_cons_self c cs)
    simp [replace1, hc, ih (fun hm => h (List.mem_cons_of_mem c hm))]

theorem replace2_cons_ne (p1 p2 : Char) (rep : List Char) (c : Char) (s : List Char)
    (h : ¬ c = p1) : replace2 p1 p2 rep (c :: s) = c :: replace2 p1 p2 rep s := by
  cases s with
  | nil => rfl
  | cons c2 cs =>
    have hc : ¬ (c = p1 ∧ c2 = p2) := fun hc => h hc.1
    simp only [replace2, if_neg hc]

theorem replace2_of_not_mem (p1 p2 : Char) (rep : List Char) :
    ∀ {s : List Char}, p1 ∉ s → replace2 p1 p2 rep s = s := by
  intro s
  induction s with
  | nil => intro _; rfl
  | cons c cs ih =>
    intro h
    have hc : ¬ c = p1 := fun hcp => h (hcp ▸ List.mem_cons_self c cs)
    rw [replace2_cons_ne p1 p2 rep c cs hc,
      ih (fun hm => h (List.mem_cons_of_mem c hm))]

theorem replace2_single_sep (p : Char) (rep : List Char) (a b : List Char)
    (ha : p ∉ a) (hb : p ∉ b) :
    replace2 p p rep (a ++ p :: b) = a ++ p :: b := by
  induction a with
  | nil =>
    simp only [List.nil_append]
    cases b with
    | nil => rfl
    | cons b0 bs =>
      have hb0 : ¬ b0 = p := fun hc => hb (List.mem_cons.mpr (Or.inl hc.symm))
      rw [show replace2 p p rep (p :: b0 :: bs) = p :: replace2 p p rep (b0 :: bs) from by
        simp [replace2, hb0]]
      rw [replace2_of_not_mem p p rep hb]
  | cons a0 as ih =>
    have ha0 : ¬ a0 = p := fun hcp => ha (hcp ▸ List.mem_cons_self a0 as)
    have ha' : p ∉ as := fun hm => ha (List.mem_cons_of_mem a0 hm)
    rw [List.cons_append, replace2_cons_ne p p rep a0 (as ++ p :: b) ha0, ih ha']

theorem splitOnChar_of_not_mem {c : Char} :
    ∀ {s : List Char}, c ∉ s → splitOnChar c s = [s] := by
  intro s
  induction s with
  | nil => intro _; rfl
  | cons x xs ih =>
    intro h
    have hx : ¬ x = c := fun hxc => h (hxc ▸ List.mem_cons_self x xs)
    simp [splitOnChar, hx, ih (fun hm => h (List.mem_cons_of_mem x hm))]

theorem splitOnChar_append_sep (c : Char) :
    ∀ (xs ys : List Char), c ∉ xs →
      splitOnChar c (xs ++ c :: ys) = xs :: splitOnChar c ys := by
  intro xs ys hxs
  induction xs with
  | nil => simp [splitOnChar]
  | cons x xs' ih =>
    have hx : ¬ x = c := fun hxc => hxs (hxc ▸ List.mem_cons_self x xs')
    have ih' := ih (fun hm => hxs (List.mem_cons_of_mem x hm))
    simp [splitOnChar, hx, ih']

theorem wordTokenize_slash_family (a b : List Char) (ha0 : a ≠ []) (_hb0 : b ≠ [])
    (ha : ∀ c ∈ a, plainChar c) (hb : ∀ c ∈ b, plainChar c) :
    wordTokenize (a ++ '/' :: b) =
      ['<' :: a ++ ['>'], '<' :: '/' :: b ++ ['>']] := by
  have haS : ' ' ∉ a := fun h => (ha ' ' h).1 rfl
  have haD : '/' ∉ a := fun h => (ha '/' h).2.1 rfl
  have haM : '-' ∉ a := fun h => (ha '-' h).2.2 rfl
  have hbS : ' ' ∉ b := fun h => (hb ' ' h).1 rfl
  have hbD : '/' ∉ b := fun h => (hb '/' h).2.1 rfl
  have hbM : '-' ∉ b := fun h => (hb '-' h).2.2 rfl
  have h4 : ' ' ∉ '/' :: b := by
    intro h
    rcases List.mem_cons.mp h with h | h
    · exact absurd h (by decide)
    · exact hbS h
  have h3 : '-' ∉ a ++ ' ' :: '/' :: b := by
    intro h
    rcases List.mem_append.mp h with h | h
    · exact haM h
    · rcases List.mem_cons.mp h with h | h
      · exact absurd h (by decide)
      · rcases List.mem_cons.mp h with h | h
        · exact absurd h (by decide)
        · exact hbM h
  unfold wordTokenize
  rw [replace2_single_sep '/' [' ', '/'] a b haD hbD,
    replace1_append '/' [' ', '/'] a ('/' :: b),
    replace1_of_not_mem [' ', '/'] haD]
  have h2 : replace1 '/' [' ', '/'] ('/' :: b) = ' ' :: '/' :: b := by
    simp [replace1, replace1_of_not_mem [' ', '/'] hbD]
  rw [h2, replace1_of_not_mem [' ', '-'] h3,
    show a ++ ' ' :: '/' :: b = a ++ ' ' :: ('/' :: b) from rfl,
    replace2_single_sep ' ' [' '] a ('/' :: b) haS h4,
    splitOnChar_append_sep ' ' a ('/' :: b) haS,
    splitOnChar_of_not_mem h4]
  simp [ha0]

theorem wordTokenize_dash_family (a b : List Char) (ha0 : a ≠ []) (_hb0 : b ≠ [])
    (ha : ∀ c ∈ a, plainChar c) (hb : ∀ c ∈ b, plainChar c) :
    wordTokenize (a ++ '-' :: b) =
      ['<' :: a ++ ['>'], '<' :: '-' :: b ++ ['>']] := by
  have haS : ' ' ∉ a := fun h => (ha ' ' h).1 rfl
  have haD : '/' ∉ a := fun h => (ha '/' h).2.1 rfl
  have haM : '-' ∉ a := fun h => (ha '-' h).2.2 rfl
  have hbS : ' ' ∉ b := fun h => (hb ' ' h).1 rfl
  have hbD : '/' ∉ b := fun h => (hb '/' h).2.1 rfl
  have hbM : '-' ∉ b := fun h => (hb '-' h).2.2 rfl
  have h0 : '/' ∉ a ++ '-' :: b := by
    intro h
    rcases List.mem_append.mp h with h | h
    · exact haD h
    · rcases List.mem_cons.mp h with h | h
      · exact absurd h (by decide)
      · exact hbD h
  have h4 : ' ' ∉ '-' :: b := by
    intro h
    rcases List.mem_cons.mp h with h | h
    · exact absurd h (by decide)
    · exact hbS h
  unfold wordTokenize
  rw [replace2_of_not_mem '/' '/' [' ', '/'] h0,
    replace1_of_not_mem [' ', '/'] h0,
    replace1_append '-' [' ', '-'] a ('-' :: b),
    replace1_of_not_mem [' ', '-'] haM]
  have h2 : replace1 '-' [' ', '-'] ('-' :: b) = ' ' :: '-' :: b := by
    simp [replace1, replace1_of_not_mem [' ', '-'] hbM]
  rw [h2,
    show a ++ ' ' :: '-' :: b = a ++ ' ' :: ('-' :: b) from rfl,
    replace2_single_sep ' ' [' '] a ('-' :: b) haS h4,
    splitOnChar_append_sep ' ' a ('-' :: b) haS,
    splitOnChar_of_not_mem h4]
  simp [ha0]

/-- Claim C5 (amended): `WordTokenizer.transform` gives each `/` or `-` a token
boundary on its LEFT only — the character starts a new token and stays attached
as a prefix of the following characters (it does not become its own token);
empty tokens are dropped and every surviving token is wrapped with the
begin-marker `<` and end-marker `>`. -/
theorem wordTokenize_boundaries :
    (∀ s : List Char, ∀ w ∈ wordTokenize s,
        ∃ core : List Char, core ≠ [] ∧ w = '<' :: core ++ ['>']) ∧
      (∀ a b : List Char, a ≠ [] → b ≠ [] →
        (∀ c ∈ a, plainChar c) → (∀ c ∈ b, plainChar c) →
        wordTokenize (a ++ '/' :: b) = ['<' :: a ++ ['>'], '<' :: '/' :: b ++ ['>']] ∧
          wordTokenize (a ++ '-' :: b) = ['<' :: a ++ ['>'], '<' :: '-' :: b ++ ['>']]) := by
  constructor
  · intro s w hw
    unfold wordTokenize at hw
    rcases List.mem_map.mp hw with ⟨core, hcore, rfl⟩
    refine ⟨core, ?_, rfl⟩
    have := (List.mem_filter.mp hcore).2
    simpa using this
  · intro a b ha0 hb0 ha hb
    exact ⟨wordTokenize_slash_family a b ha0 hb0 ha hb,
      wordTokenize_dash_family a b ha0 hb0 ha hb⟩

/-- Counterexample to claim C5: on the sentence `"a/b"`, the source attaches
the `/` to the following token (`["<a>", "</b>"]`), whereas the claimed
surrounding-space behaviour would make `/` its own token
(`["<a>", "</>", "<b>"]`). -/
theorem wordTokenize_counterexample :
    wordTokenize ['a', '/', 'b'] = [['<', 'a', '>'], ['<', '/', 'b', '>']] ∧
      wordTokenizeClaim ['a', '/', 'b'] =
        [['<', 'a', '>'], ['<', '/', '>'], ['<', 'b', '>']] ∧
      wordTokenize ['a', '/', 'b'] ≠ wordTokenizeClaim ['a', '/', 'b'] := by
  refine ⟨by decide, by decide, by decide⟩

/-- Witness for the amended C5 at a concrete slash-joined and dash-joined pair,
plus the wrapping property at a concrete token. -/
theorem wordTokenize_boundaries_witness :
    (wordTokenize (['a'] ++ '/' :: ['b']) =
        ['<' :: ['a'] ++ ['>'], '<' :: '/' :: ['b'] ++ ['>']] ∧
      wordTokenize (['a'] ++ '-' :: ['b']) =
        ['<' :: ['a'] ++ ['>'], '<' :: '-' :: ['b'] ++ ['>']]) ∧
      ∃ core : List Char, core ≠ [] ∧
        ['<', 'h', 'i', '>'] = '<' :: core ++ ['>'] :=
  ⟨wordTokenize_boundaries.2 ['a'] ['b'] (by decide) (by decide) (by decide) (by decide),
    wordTokenize_boundaries.1 ['h', 'i'] ['<', 'h', 'i', '>'] (by decide)⟩

end SGNN
